import Mathlib

/-!
Verification of the classification-and-extraction pipeline of
`rewrite-all-local.py` (a Shopify product description rewriter).

The Python source is shallowly embedded below.  Python values that can flow
through the pipeline (results of `json.loads`, metafield values, assembled
specification entries) are modelled by the inductive type `PyVal`.  Python
floats are modelled as exact decimal numbers `m * 10 ^ e`; the double
rounding/overflow of CPython is not modelled (all inputs exercised by the
theorems stay well inside the exactly-representable range).  BeautifulSoup's
`get_text(" ", strip=True)` is modelled as tag removal for markup without
entities, comments or script/style blocks, followed by the same whitespace
collapsing the source performs with `re.sub`.
-/

/-- Embedding of a Python runtime value as produced by `json.loads` and
consumed by the payload builder.  `decimal m e` models the float `m * 10^e`. -/
inductive PyVal where
  | none_
  | bool_ (b : Bool)
  | int_ (n : Int)
  | decimal (m : Int) (e : Int)
  | inf_ (neg : Bool)
  | nan_
  | str_ (s : String)
  | list_ (xs : List PyVal)
  | dict_ (fs : List (String × PyVal))

/-- Python truthiness (`bool(v)`) on embedded values. -/
def pyTruthy : PyVal → Bool
  | .none_ => false
  | .bool_ b => b
  | .int_ n => if n = 0 then false else true
  | .decimal m _ => if m = 0 then false else true
  | .inf_ _ => true
  | .nan_ => true
  | .str_ s => if s = ("") then false else true
  | .list_ xs => ! xs.isEmpty
  | .dict_ fs => ! fs.isEmpty

/-- Drop leading whitespace characters. -/
def dropWsLeft : List Char → List Char
  | [] => []
  | c :: cs => if c.isWhitespace then dropWsLeft cs else c :: cs

/-- Embedding of Python `str.strip()`. -/
def pyStrip (s : String) : String :=
  String.mk ((dropWsLeft (dropWsLeft s.data).reverse).reverse)

/-- Embedding of Python `str.lower()` (ASCII-adequate). -/
def pyLower (s : String) : String :=
  String.mk (s.data.map Char.toLower)

/-- One left-to-right non-overlapping replacement pass over a character list,
with explicit fuel (the pattern is always non-empty at call sites). -/
def pyReplaceAux (fuel : Nat) (pat repl : List Char) (cs : List Char) : List Char :=
  match fuel, cs with
  | 0, cs => cs
  | _, [] => []
  | fuel + 1, c :: rest =>
    if pat.isPrefixOf (c :: rest) then
      repl ++ pyReplaceAux fuel pat repl ((c :: rest).drop pat.length)
    else
      c :: pyReplaceAux fuel pat repl rest

/-- Embedding of Python `str.replace(pat, repl)` (all occurrences). -/
def pyReplace (s pat repl : String) : String :=
  String.mk (pyReplaceAux s.data.length pat.data repl.data s.data)

/-- Split a character list into maximal whitespace-free tokens. -/
def wsTokens : List Char → List Char → List (List Char)
  | [], acc => if acc = [] then [] else [acc.reverse]
  | c :: cs, acc =>
    if c.isWhitespace then
      if acc = [] then wsTokens cs [] else acc.reverse :: wsTokens cs []
    else
      wsTokens cs (c :: acc)

/-- Join tokens with single spaces. -/
def joinTokens : List (List Char) → List Char
  | [] => []
  | [t] => t
  | t :: ts => t ++ ' ' :: joinTokens ts

/-- Last-wins association lookup, matching Python dict construction from a
JSON object literal followed by `d.get(k)` with default `None`. -/
def dict_get (fs : List (String × PyVal)) (k : String) : PyVal :=
  (fs.foldl (fun acc kv => if kv.1 = k then some kv.2 else acc) none).getD .none_

/-- Truthiness of an optional GraphQL string value (`None` and `""` are falsy). -/
def strTruthy : Option String → Bool
  | none => false
  | some s => if s = ("") then false else true

/-- Result of CPython `float(str)`: an exact decimal `m * 10^e`, an infinity,
or a NaN.  Double rounding/overflow is not modelled. -/
inductive PFloat where
  | finite (m : Int) (e : Int)
  | infty (neg : Bool)
  | nan

/-- Take the maximal run of leading decimal digits. -/
def takeDigits : List Char → List Char × List Char
  | [] => ([], [])
  | c :: cs =>
    if c.isDigit then
      let (ds, rest) := takeDigits cs
      (c :: ds, rest)
    else ([], c :: cs)

/-- Numeric value of a digit run. -/
def digitsToNat (ds : List Char) : Nat :=
  ds.foldl (fun acc c => acc * 10 + (c.toNat - 48)) 0

/-- Parse the optional exponent suffix of a Python float literal; the mantissa
`m` and the exponent contribution `e0` accumulated so far are passed in. -/
def parseFloatExpDigits (m : Int) (e0 : Int) (neg : Bool) (ds : List Char) : Option PFloat :=
  let (digs, rest) := takeDigits ds
  if digs = [] then none
  else if rest = [] then
    some (.finite m (e0 + (if neg then -(digitsToNat digs : Int) else (digitsToNat digs : Int))))
  else none

/-- Continue a Python float parse after the mantissa. -/
def parseFloatExp (m : Int) (e0 : Int) : List Char → Option PFloat
  | [] => some (.finite m e0)
  | c :: cs =>
    if c = 'e' ∨ c = 'E' then
      match cs with
      | '+' :: ds => parseFloatExpDigits m e0 false ds
      | '-' :: ds => parseFloatExpDigits m e0 true ds
      | ds => parseFloatExpDigits m e0 false ds
    else none

/-- Parse the body of a Python float literal after stripping sign/whitespace. -/
def pyFloatBody (neg : Bool) (cs : List Char) : Option PFloat :=
  if cs.map Char.toLower = ("inf").data ∨ cs.map Char.toLower = ("infinity").data then
    some (.infty neg)
  else if cs.map Char.toLower = ("nan").data then some .nan
  else
    let (ip, r1) := takeDigits cs
    match r1 with
    | '.' :: r2 =>
      let (fp, r3) := takeDigits r2
      if ip = [] ∧ fp = [] then none
      else
        let m : Int := (if neg then -1 else 1) * (digitsToNat (ip ++ fp) : Int)
        parseFloatExp m (-(fp.length : Int)) r3
    | _ =>
      if ip = [] then none
      else
        let m : Int := (if neg then -1 else 1) * (digitsToNat ip : Int)
        parseFloatExp m 0 r1

/-- Embedding of CPython `float(s)` for a string argument: strip whitespace,
take an optional sign, then a decimal literal or an inf/nan spelling. -/
def pyParseFloat (s : String) : Option PFloat :=
  match (pyStrip s).data with
  | [] => pyFloatBody false []
  | c :: rest =>
    if c = '+' then pyFloatBody false rest
    else if c = '-' then pyFloatBody true rest
    else pyFloatBody false (c :: rest)

/-- Truncation toward zero of the decimal `m * 10^e`, as CPython `int(float)`. -/
def truncDec (m : Int) (e : Int) : Int :=
  if 0 ≤ e then m * (10 : Int) ^ e.toNat
  else if 0 ≤ m then Int.ofNat (m.toNat / 10 ^ (-e).toNat)
  else - Int.ofNat (m.natAbs / 10 ^ (-e).toNat)

/-- Embedding of `int(float(s))` for a string, `none` when either step raises. -/
def int_float_str (s : String) : Option Int :=
  match pyParseFloat s with
  | some (.finite m e) => some (truncDec m e)
  | _ => none

/-- Embedding of CPython `float(v)` on a runtime value; `none` models a raise
(`TypeError`/`ValueError`). -/
def pyFloatOfVal : PyVal → Option PFloat
  | .str_ s => pyParseFloat s
  | .int_ n => some (.finite n 0)
  | .decimal m e => some (.finite m e)
  | .bool_ b => some (.finite (if b then 1 else 0) 0)
  | .inf_ neg => some (.infty neg)
  | .nan_ => some .nan
  | _ => none

/-- JSON whitespace per RFC 8259 (the characters `json.loads` skips). -/
def jsonWsChar (c : Char) : Bool :=
  c == ' ' || c == '\t' || c == '\n' || c == '\r'

/-- Drop leading JSON whitespace. -/
def skipJsonWs : List Char → List Char
  | [] => []
  | c :: cs => if jsonWsChar c then skipJsonWs cs else c :: cs

/-- Value of a hexadecimal digit. -/
def hexDigitVal (c : Char) : Option Nat :=
  if c.isDigit then some (c.toNat - 48)
  else if 'a' ≤ c ∧ c ≤ 'f' then some (c.toNat - 87)
  else if 'A' ≤ c ∧ c ≤ 'F' then some (c.toNat - 55)
  else none

/-- Parse the remainder of a JSON string literal (opening quote consumed),
in strict mode: raw control characters are rejected.  Surrogate pairs are not
combined (out of scope for the data this pipeline sees). -/
def parseJStringAux : List Char → List Char → Option (String × List Char)
  | [], _ => none
  | c :: rest, acc =>
    if c = '"' then some (String.mk acc.reverse, rest)
    else if c = '\\' then
      match rest with
      | [] => none
      | e :: r2 =>
        if e = '"' then parseJStringAux r2 ('"' :: acc)
        else if e = '\\' then parseJStringAux r2 ('\\' :: acc)
        else if e = '/' then parseJStringAux r2 ('/' :: acc)
        else if e = 'b' then parseJStringAux r2 ('\x08' :: acc)
        else if e = 'f' then parseJStringAux r2 ('\x0c' :: acc)
        else if e = 'n' then parseJStringAux r2 ('\n' :: acc)
        else if e = 'r' then parseJStringAux r2 ('\r' :: acc)
        else if e = 't' then parseJStringAux r2 ('\t' :: acc)
        else if e = 'u' then
          match r2 with
          | h1 :: h2 :: h3 :: h4 :: r3 =>
            match hexDigitVal h1, hexDigitVal h2, hexDigitVal h3, hexDigitVal h4 with
            | some a, some b, some c2, some d =>
              parseJStringAux r3 (Char.ofNat (((a * 16 + b) * 16 + c2) * 16 + d) :: acc)
            | _, _, _, _ => none
          | _ => none
        else none
    else if c.toNat < 32 then none
    else parseJStringAux rest (c :: acc)

/-- Parse the integer part of a JSON number: `0` or a nonzero-led digit run. -/
def parseJIntPart : List Char → Option (List Char × List Char)
  | [] => none
  | '0' :: rest => some (['0'], rest)
  | c :: rest =>
    if c.isDigit then
      let (ds, r) := takeDigits rest
      some (c :: ds, r)
    else none

/-- Parse the digits of a JSON exponent. -/
def jsonExpDigits (neg : Bool) (ds : List Char) : Option (Int × List Char) :=
  let (digs, rest) := takeDigits ds
  if digs = [] then none
  else some ((if neg then -(digitsToNat digs : Int) else (digitsToNat digs : Int)), rest)

/-- Parse an optional JSON exponent part.  `some (none, r)` means no exponent. -/
def jsonNumExpPart : List Char → Option (Option Int × List Char)
  | [] => some (none, [])
  | c :: cs =>
    if c = 'e' ∨ c = 'E' then
      match cs with
      | '+' :: ds =>
        match jsonExpDigits false ds with
        | some (v, r) => some (some v, r)
        | none => none
      | '-' :: ds =>
        match jsonExpDigits true ds with
        | some (v, r) => some (some v, r)
        | none => none
      | ds =>
        match jsonExpDigits false ds with
        | some (v, r) => some (some v, r)
        | none => none
    else some (none, c :: cs)

/-- Parse a JSON number (sign already consumed); integer literals decode to
Python `int`, fraction/exponent forms to Python `float`. -/
def parseJNumber (neg : Bool) (cs : List Char) : Option (PyVal × List Char) :=
  match parseJIntPart cs with
  | none => none
  | some (ip, r1) =>
    match r1 with
    | '.' :: r2 =>
      let (fp, r3) := takeDigits r2
      if fp = [] then none
      else
        match jsonNumExpPart r3 with
        | none => none
        | some (expv, r4) =>
          let m : Int := (if neg then -1 else 1) * (digitsToNat (ip ++ fp) : Int)
          some (.decimal m ((expv.getD 0) - (fp.length : Int)), r4)
    | _ =>
      match jsonNumExpPart r1 with
      | none => none
      | some (none, r4) =>
        some (.int_ ((if neg then -1 else 1) * (digitsToNat ip : Int)), r4)
      | some (some ev, r4) =>
        some (.decimal ((if neg then -1 else 1) * (digitsToNat ip : Int)) ev, r4)

mutual

/-- Fueled recursive-descent parser for a JSON value, embedding `json.loads`
(including its default acceptance of `NaN`, `Infinity` and `-Infinity`). -/
def parseJValue : Nat → List Char → Option (PyVal × List Char)
  | 0, _ => none
  | fuel + 1, cs =>
    match skipJsonWs cs with
    | [] => none
    | c :: rest =>
      if c = '"' then
        match parseJStringAux rest [] with
        | some (s, r) => some (.str_ s, r)
        | none => none
      else if c = '[' then parseJArrBody fuel rest
      else if c = '\x7b' then parseJObjBody fuel rest
      else if c = 't' then
        match rest with
        | 'r' :: 'u' :: 'e' :: r => some (.bool_ true, r)
        | _ => none
      else if c = 'f' then
        match rest with
        | 'a' :: 'l' :: 's' :: 'e' :: r => some (.bool_ false, r)
        | _ => none
      else if c = 'n' then
        match rest with
        | 'u' :: 'l' :: 'l' :: r => some (.none_, r)
        | _ => none
      else if c = 'N' then
        match rest with
        | 'a' :: 'N' :: r => some (.nan_, r)
        | _ => none
      else if c = 'I' then
        match rest with
        | 'n' :: 'f' :: 'i' :: 'n' :: 'i' :: 't' :: 'y' :: r => some (.inf_ false, r)
        | _ => none
      else if c = '-' then
        match rest with
        | 'I' :: 'n' :: 'f' :: 'i' :: 'n' :: 'i' :: 't' :: 'y' :: r => some (.inf_ true, r)
        | _ => parseJNumber true rest
      else parseJNumber false (c :: rest)

/-- Parse a JSON array after the opening bracket. -/
def parseJArrBody : Nat → List Char → Option (PyVal × List Char)
  | 0, _ => none
  | fuel + 1, cs =>
    match skipJsonWs cs with
    | ']' :: r => some (.list_ [], r)
    | cs2 =>
      match parseJArrItems fuel cs2 with
      | some (vs, r) => some (.list_ vs, r)
      | none => none

/-- Parse the comma-separated items of a non-empty JSON array. -/
def parseJArrItems : Nat → List Char → Option (List PyVal × List Char)
  | 0, _ => none
  | fuel + 1, cs =>
    match parseJValue fuel cs with
    | none => none
    | some (v, r) =>
      match skipJsonWs r with
      | ',' :: r2 =>
        match parseJArrItems fuel r2 with
        | some (vs, r3) => some (v :: vs, r3)
        | none => none
      | ']' :: r2 => some ([v], r2)
      | _ => none

/-- Parse a JSON object after the opening brace. -/
def parseJObjBody : Nat → List Char → Option (PyVal × List Char)
  | 0, _ => none
  | fuel + 1, cs =>
    match skipJsonWs cs with
    | '\x7d' :: r => some (.dict_ [], r)
    | cs2 =>
      match parseJObjItems fuel cs2 with
      | some (fs, r) => some (.dict_ fs, r)
      | none => none

/-- Parse the members of a non-empty JSON object. -/
def parseJObjItems : Nat → List Char → Option (List (String × PyVal) × List Char)
  | 0, _ => none
  | fuel + 1, cs =>
    match skipJsonWs cs with
    | '"' :: r =>
      match parseJStringAux r [] with
      | none => none
      | some (k, r2) =>
        match skipJsonWs r2 with
        | ':' :: r3 =>
          match parseJValue fuel r3 with
          | none => none
          | some (v, r4) =>
            match skipJsonWs r4 with
            | ',' :: r5 =>
              match parseJObjItems fuel r5 with
              | some (fs, r6) => some ((k, v) :: fs, r6)
              | none => none
            | '\x7d' :: r5 => some ([(k, v)], r5)
            | _ => none
        | _ => none
    | _ => none

end

/-- Embedding of `json.loads` on a string: parse one value and require only
whitespace to remain.  `none` models a raised `JSONDecodeError`. -/
def json_loads (s : String) : Option PyVal :=
  match parseJValue (2 * s.data.length + 2) s.data with
  | some (v, rest) => if skipJsonWs rest = [] then some v else none
  | none => none

/-- Render the exact decimal `m * 10^e` in the plain fixed-point style of
CPython `str(float)` (scientific notation and shortest-roundtrip digits are
not modelled; no theorem depends on this rendering for large exponents). -/
def renderDec (m : Int) (e : Int) : String :=
  if 0 ≤ e then toString m ++ String.mk (List.replicate e.toNat '0') ++ (".0")
  else
    let k := (-e).toNat
    let ds := (toString m.natAbs).data
    let ds := if ds.length ≤ k then List.replicate (k + 1 - ds.length) '0' ++ ds else ds
    (if m < 0 then ("-") else ("")) ++
      String.mk (ds.take (ds.length - k)) ++ (".") ++ String.mk (ds.drop (ds.length - k))

mutual

/-- Embedding of Python `repr(v)` (string escaping inside `repr` is not
reproduced; the values this pipeline manipulates need none). -/
def pyRepr : PyVal → String
  | .none_ => ("None")
  | .bool_ b => if b then ("True") else ("False")
  | .int_ n => toString n
  | .decimal m e => renderDec m e
  | .inf_ neg => if neg then ("-inf") else ("inf")
  | .nan_ => ("nan")
  | .str_ s => ("\x27") ++ s ++ ("\x27")
  | .list_ xs => ("[") ++ pyReprList xs ++ ("]")
  | .dict_ fs => ("\x7b") ++ pyReprDict fs ++ ("\x7d")

/-- Comma-joined reprs of list elements. -/
def pyReprList : List PyVal → String
  | [] => ("")
  | [v] => pyRepr v
  | v :: vs => pyRepr v ++ (", ") ++ pyReprList vs

/-- Comma-joined reprs of dict members. -/
def pyReprDict : List (String × PyVal) → String
  | [] => ("")
  | [(k, v)] => ("\x27") ++ k ++ ("\x27: ") ++ pyRepr v
  | (k, v) :: fs => ("\x27") ++ k ++ ("\x27: ") ++ pyRepr v ++ (", ") ++ pyReprDict fs

end

/-- Embedding of Python `str(v)`: identical to `repr` except on strings. -/
def pyStr : PyVal → String
  | .str_ s => s
  | v => pyRepr v

/-- Remove markup tags, replacing each tag with a space: the visible-text
extraction BeautifulSoup performs via `get_text(" ", strip=True)`, modelled
for markup without entities, comments or script/style blocks. -/
def stripTagsAux : List Char → Bool → List Char
  | [], _ => []
  | c :: cs, true => if c = '>' then stripTagsAux cs false else stripTagsAux cs true
  | c :: cs, false =>
    if c = '<' then ' ' :: stripTagsAux cs true else c :: stripTagsAux cs false

/-- Embedding of `strip_html_to_text`: extract visible text, then collapse
whitespace runs to single spaces and trim the ends (`re.sub(r"\s+", " ")`
followed by `strip()`). -/
def strip_html_to_text (html : String) : String :=
  if html = ("") then ("")
  else String.mk (joinTokens (wsTokens (stripTagsAux html.data false) []))

/-- Embedding of `word_count`: split on whitespace runs, count non-empty
tokens. -/
def word_count (text : String) : Nat :=
  if text = ("") then 0
  else (wsTokens (pyStrip text).data []).length

/-- The `AI_PHRASES` dictionary exactly as the source defines it.  Python
implicit adjacent-string-literal concatenation fuses three pairs of entries
(`"symphony" "indulge"`, `"ellegance" "unparalleled"`,
`"craftsmanship" "sophisticated"`), leaving 21 effective entries. -/
def AI_PHRASES : List String :=
  [("timeless"), ("must-have"), ("embodies"), ("symphonyindulge"), ("essence"),
   ("allure"), ("prestige"), ("epitomizes"), ("elleganceunparalleled"),
   ("exquisite"), ("craftsmanshipsophisticated"), ("elevate your style"),
   ("ultimate"), ("expression"), ("embody"), ("aesthetic"), ("refined taste"),
   ("experience"), ("luxurious"), ("prestigious"), ("status")]

/-- Substring occurrence test on character lists (Python `in`). -/
def listIsInfix (pat : List Char) : List Char → Bool
  | [] => pat.isEmpty
  | c :: cs => pat.isPrefixOf (c :: cs) || listIsInfix pat cs

/-- Embedding of `count_ai_phrases`: lower-case the raw markup and count the
dictionary entries occurring as substrings. -/
def count_ai_phrases (html : String) : Nat :=
  ((AI_PHRASES.filter (fun p => listIsInfix p.data (pyLower html).data)).length)

/-- Threshold: editor-note maximum word count. -/
def EDITORS_NOTE_MAX_WORDS : Nat := 50

/-- Threshold: legacy-length character threshold. -/
def MAX_CHAR_COUNT : Nat := 1200

/-- Threshold: legacy-length word threshold. -/
def MAX_WORD_COUNT : Nat := 180

/-- Threshold: minimum signal-phrase count. -/
def MIN_AI_PHRASES : Nat := 1

/-- The effective description markup: `p.get("descriptionHtml") or ""`. -/
def descOr (descriptionHtml : Option String) : String :=
  match descriptionHtml with
  | some s => s
  | none => ("")

/-- Embedding of `should_process_product`.  The product's composite
`bag_style` metafield value and `descriptionHtml` are all it inspects.
Returns `(should_process, existing_editor_note, reason)`. -/
def should_process_product (bag_style : Option String) (descriptionHtml : Option String) :
    Bool × Option String × String :=
  if strTruthy bag_style = false then
    (false, none,
      ("SKIPPED: Bag Style is empty (non-Hermès handbag / manual description required)"))
  else
    let desc_html := descOr descriptionHtml
    if desc_html = ("") then (true, none, ("PROCESS: description empty"))
    else
      let char_count := desc_html.length
      let text := strip_html_to_text desc_html
      let wc := word_count text
      if 0 < wc ∧ wc ≤ EDITORS_NOTE_MAX_WORDS then
        (true, some desc_html,
          ("PROCESS: editor note detected (") ++ toString wc ++ (" words)"))
      else
        let ai_phrase_count := count_ai_phrases desc_html
        if MAX_CHAR_COUNT < char_count ∧ MAX_WORD_COUNT < wc ∧
            MIN_AI_PHRASES ≤ ai_phrase_count then
          (true, none,
            ("PROCESS: legacy AI detected (chars=") ++ toString char_count ++
              (", words=") ++ toString wc ++ (", phrases=") ++
              toString ai_phrase_count ++ (")"))
        else
          (false, none,
            ("SKIPPED: has description (chars=") ++ toString char_count ++
              (", words=") ++ toString wc ++ (", phrases=") ++
              toString ai_phrase_count ++ (")"))

/-- First element of a decoded non-empty list, as `parse_listish_string`
returns it: `str(first).strip()` unless the element is `None`. -/
def listishFirst : PyVal → Option String
  | .none_ => none
  | v => some (pyStrip (pyStr v))

/-- The Liquid-style fallback of `parse_listish_string` when strict JSON
decoding fails: strip brackets/quotes/backslashes, split on commas, trim,
drop empties, take the first surviving piece. -/
def listishFallback (v : String) : Option String :=
  let v2 := pyStrip (pyReplace (pyReplace (pyReplace (pyReplace v ("[") ("")) ("]") ("")) ("\"") ("")) ("\\") (""))
  match ((v2.splitOn (",")).map pyStrip).filter (fun p => p ≠ ("")) with
  | p :: _ => some p
  | [] => none

/-- Embedding of Python `str.startswith` over character data. -/
def strStartsWith (v p : String) : Bool := p.data.isPrefixOf v.data

/-- Embedding of Python `str.endswith` over character data. -/
def strEndsWith (v p : String) : Bool := p.data.isSuffixOf v.data

/-- Embedding of `parse_listish_string`. -/
def parse_listish_string (value : Option String) : Option String :=
  match value with
  | none => none
  | some value =>
    let v := pyStrip value
    if v = ("") then none
    else if pyLower v = ("nan") then none
    else if strStartsWith v ("[") ∧ strEndsWith v ("]") then
      match json_loads v with
      | some (.list_ (first :: _)) => listishFirst first
      | some _ => some v
      | none => listishFallback v
    else some v

/-- Result of `parse_dimensions_list_dimension`: the Python value `None` or a
returned value.  The function is total: every exception raised inside the
`try` block (decode failure, or the `.lower()` AttributeError on a truthy
non-string unit) is caught by `except Exception: return s`. -/
inductive DimResult where
  | pyNone
  | val (v : PyVal)

/-- Normalize a unit string: `unit.lower()` then the two spelling
substitutions. -/
def normUnit (u : String) : String :=
  pyReplace (pyReplace (pyLower u) ("centimeters") ("cm")) ("centimetres") ("cm")

/-- Embedding of `(d.get("unit") or "").lower().replace(...)`: falsy values
give the empty unit, strings are normalized; `none` models the AttributeError
a truthy non-string raises, which the enclosing `try` catches. -/
def dimUnit : PyVal → Option String
  | .str_ s => some (normUnit s)
  | u => if pyTruthy u then none else some ("")

/-- Embedding of the magnitude coercion `int(float(val))`, falling back to
`float(val)` and then the raw value as the source's nested `try` blocks do. -/
def coerceDimValue (val : PyVal) : PyVal :=
  match pyFloatOfVal val with
  | some (.finite m e) => .int_ (truncDec m e)
  | some (.infty neg) => .inf_ neg
  | some .nan => .nan_
  | none => val

/-- Process one element of the decoded dimensions list: non-dicts are
skipped, dicts yield a normalized `value`/`unit` pair, `none` models the
unit raise (caught further out by the `except` clause). -/
def dimElem : PyVal → Option (Option PyVal)
  | .dict_ fs =>
    match dimUnit (dict_get fs ("unit")) with
    | none => none
    | some unit =>
      some (some (.dict_ [(("value"), coerceDimValue (dict_get fs ("value"))),
                          (("unit"), .str_ unit)]))
  | _ => some none

/-- Traverse the decoded list, accumulating normalized elements; a raise in
any element aborts the loop (`none`), to be caught by the `except` clause. -/
def dimFold : List PyVal → Option (List PyVal)
  | [] => some []
  | d :: ds =>
    match dimElem d with
    | none => none
    | some none => dimFold ds
    | some (some v) => (dimFold ds).map (fun vs => v :: vs)

/-- Dispatch on the decode result of the dimensions string `s`: a decoded
list is traversed, anything else falls back to the stripped raw string.  The
`except Exception: return s` clause makes every failure path — decode
failure, or an exception while traversing the list — yield `s`. -/
def dimsFromDecoded (s : String) : Option PyVal → DimResult
  | some (.list_ ds) =>
    match dimFold ds with
    | none => .val (.str_ s)
    | some [] => .val (.str_ s)
    | some out => .val (.list_ out)
  | some _ => .val (.str_ s)
  | none => .val (.str_ s)

/-- Embedding of `parse_dimensions_list_dimension`. -/
def parse_dimensions_list_dimension (dimensions_raw : Option String) : DimResult :=
  match dimensions_raw with
  | none => .pyNone
  | some raw =>
    if raw = ("") then .pyNone
    else
      let s := pyStrip raw
      if s = ("") then .pyNone
      else if pyLower s = ("nan") then .pyNone
      else dimsFromDecoded s (json_loads s)

/-- A metaobject field `{ key value }` as returned by the GraphQL query. -/
structure MField where
  key : Option String
  value : Option String
deriving DecidableEq

/-- A product record as the GraphQL query shapes it.  Scalar metafields are
modelled by their composite value `(p.get(k) or {}).get("value")`; the
reference metafields by the node/field structure the payload builder walks
(after the source's `or {}` / `or []` defaulting, which it cannot observe
through). -/
structure Product where
  id : Option String
  title : Option String
  vendor : Option String
  handle : Option String
  descriptionHtml : Option String
  bag_style : Option String
  bag_size : Option String
  condition : Option String
  receipt : Option String
  accessories : Option String
  stamp : Option String
  hardware : Option String
  dimensions : Option String
  hermes_colour : List (List MField)
  hermes_material : List (List MField)
  hermes_hardware : Option (List MField)
  size_style_description : Option (Option String)
  hermes_construction : Option (Option String)
deriving DecidableEq

/-- A product record with every attribute absent, used to state concrete
instances compactly. -/
def emptyProduct : Product :=
  { id := none, title := none, vendor := none, handle := none,
    descriptionHtml := none, bag_style := none, bag_size := none,
    condition := none, receipt := none, accessories := none, stamp := none,
    hardware := none, dimensions := none, hermes_colour := [],
    hermes_material := [], hermes_hardware := none,
    size_style_description := none, hermes_construction := none }

/-- The colour category keys the payload builder recognizes. -/
def colourCatKeys : List String :=
  [("blue"), ("pink_purple"), ("red"), ("orange_yellow"), ("green"),
   ("black_grey"), ("brown"), ("natural_white")]

/-- The material category keys the payload builder recognizes. -/
def materialCatKeys : List String :=
  [("calfskin"), ("goatskin"), ("buffalo"), ("exotic_skins"), ("canvas"),
   ("other")]

/-- Collect, in field-iteration order, the truthy values of fields whose key
belongs to `keys` across all referenced sub-records. -/
def collectVals (keys : List String) (nodes : List (List MField)) : List String :=
  (nodes.flatten).filterMap (fun f =>
    match f.value with
    | none => none
    | some v =>
      if v = ("") then none
      else
        match f.key with
        | some k => if k ∈ keys then some v else none
        | none => none)

/-- Embedding of `dict.fromkeys(...)`-based de-duplication: keep the first
occurrence of each value, preserving order. -/
def pyDedupAux (seen : List String) : List String → List String
  | [] => []
  | x :: xs => if x ∈ seen then pyDedupAux seen xs else x :: pyDedupAux (x :: seen) xs

/-- First-seen-order de-duplication (`list(dict.fromkeys(l))`). -/
def pyDedup (l : List String) : List String := pyDedupAux [] l

/-- The last truthy `hardware_description` field value of the hardware
sub-record, starting from the empty string (the loop overwrites). -/
def hardwareDescOf (hh : Option (List MField)) : String :=
  match hh with
  | none => ("")
  | some fs =>
    fs.foldl (fun acc f =>
      match f.key, f.value with
      | some k, some v => if k = ("hardware_description") ∧ v ≠ ("") then v else acc
      | _, _ => acc) ("")

/-- Convert an optional GraphQL string to the Python value stored verbatim. -/
def optPy : Option String → PyVal
  | none => .none_
  | some s => .str_ s

/-- The structured payload `build_payload_from_product` assembles.  The
`specifications` and `puzzle_description` dicts are modelled as ordered
association lists (all keys inserted are distinct). -/
structure Payload where
  product_id : Option String
  product_title : Option String
  product_vendor : Option String
  product_handle : Option String
  specifications : List (String × PyVal)
  puzzle_description : List (String × PyVal)
  editor_note : Option String

/-- Specifications segment: the conditionally-present bag style. -/
def bagStyleSeg (p : Product) : List (String × PyVal) :=
  match parse_listish_string p.bag_style with
  | some s => if s = ("") then [] else [(("bag_style"), .str_ s)]
  | none => []

/-- Specifications segment: the conditionally-present integer bag size. -/
def bagSizeSeg (p : Product) : List (String × PyVal) :=
  match p.bag_size with
  | none => []
  | some sz =>
    if sz = ("") ∨ sz = ("nan") ∨ sz = ("NaN") then []
    else
      match int_float_str sz with
      | some n => [(("bag_size_cm"), .int_ n)]
      | none => []

/-- Specifications segment: the conditionally-present condition. -/
def conditionSeg (p : Product) : List (String × PyVal) :=
  match parse_listish_string p.condition with
  | some c => if c = ("") then [] else [(("condition"), .str_ c)]
  | none => []

/-- Specifications segment: the four unconditionally-present verbatim keys. -/
def alwaysSeg (p : Product) : List (String × PyVal) :=
  [(("stamp"), optPy p.stamp), (("receipt"), optPy p.receipt),
   (("accessories"), optPy p.accessories), (("hardware"), optPy p.hardware)]

/-- Specifications segment: the conditionally-present dimensions. -/
def dimsSeg (p : Product) : List (String × PyVal) :=
  match parse_dimensions_list_dimension p.dimensions with
  | .val v => [(("dimensions"), v)]
  | _ => []

/-- Specifications segment: colour category and code joins, emitted only when
colour references exist and the respective collected list is non-empty. -/
def colourSeg (p : Product) : List (String × PyVal) :=
  match p.hermes_colour with
  | [] => []
  | _ =>
    (match collectVals colourCatKeys p.hermes_colour with
     | [] => []
     | cats => [(("hermes_colour"),
         .str_ (String.intercalate (" | ") (pyDedup cats)))]) ++
    (match collectVals [("colour_code")] p.hermes_colour with
     | [] => []
     | codes => [(("hermes_colour_code"),
         .str_ (String.intercalate (" | ") (pyDedup codes)))])

/-- Specifications segment: the material category join. -/
def materialSeg (p : Product) : List (String × PyVal) :=
  match p.hermes_material with
  | [] => []
  | _ =>
    match collectVals materialCatKeys p.hermes_material with
    | [] => []
    | cats => [(("hermes_material"),
        .str_ (String.intercalate (" | ") (pyDedup cats)))]

/-- The `specifications` dict of the payload, in insertion order (all
inserted keys are distinct, so the dict is the concatenation of the
segments). -/
def specsOf (p : Product) : List (String × PyVal) :=
  bagStyleSeg p ++ bagSizeSeg p ++ conditionSeg p ++ alwaysSeg p ++
    dimsSeg p ++ colourSeg p ++ materialSeg p

/-- The `puzzle_description` dict of the payload, in insertion order. -/
def puzzleOf (p : Product) : List (String × PyVal) :=
  let puzzle0 : List (String × PyVal) :=
    match p.size_style_description with
    | some (some v) => if v = ("") then [] else [(("style_size_description"), .str_ v)]
    | _ => []
  let puzzle1 := puzzle0 ++
    (match p.hermes_construction with
     | some (some v) => if v = ("") then [] else [(("construction_description"), .str_ v)]
     | _ => [])
  let puzzle2 := puzzle1 ++
    (match collectVals [("material_description")] p.hermes_material with
     | [] => []
     | ds => [(("material_descriptions"), .list_ (ds.map .str_))])
  let puzzle3 := puzzle2 ++
    (match collectVals [("colour_description")] p.hermes_colour with
     | [] => []
     | ds => [(("colour_descriptions"), .list_ (ds.map .str_))])
  puzzle3 ++
    (let hd := hardwareDescOf p.hermes_hardware
     if hd = ("") then [] else [(("hardware_description"), .str_ hd)])

/-- Embedding of `build_payload_from_product`.  The builder is total: the
only exception that can arise inside it (during dimensions parsing) is
caught there. -/
def build_payload_from_product (p : Product) (existing_editor_note : Option String) :
    Payload :=
  { product_id := p.id, product_title := p.title, product_vendor := p.vendor,
    product_handle := p.handle,
    specifications := specsOf p,
    puzzle_description := puzzleOf p,
    editor_note :=
      match existing_editor_note with
      | some n => if n = ("") then none else some n
      | none => none }

/-- Python `repr` of the list of keys of a dict (`list(resp.keys())` as the
f-string renders it). -/
def pyReprOfKeys (ks : List String) : String :=
  ("[") ++ String.intercalate (", ") (ks.map (fun k => ("\x27") ++ k ++ ("\x27"))) ++ ("]")

/-- Outcome of the driver's handling of one generation-service response:
either replacement markup was produced, or the row is marked failed and the
exception is re-raised (the run halts; nothing is swallowed or retried). -/
inductive StepOutcome where
  | generated (html : PyVal)
  | fatal (status : String)

/-- Embedding of the `generated_html` check in `main` together with the
driver's `except` policy: a falsy/absent `description_html` raises
`RuntimeError` whose message lists the keys present; the handler writes
`FAILED: <message>` into the status column and re-raises. -/
def webhook_response_step (resp : List (String × PyVal)) : StepOutcome :=
  let generated_html := dict_get resp ("description_html")
  if pyTruthy generated_html then .generated generated_html
  else .fatal (("FAILED: Webhook missing description_html (keys=") ++
    pyReprOfKeys (resp.map Prod.fst) ++ (")"))

/-- A source attribute value that is absent, empty (up to surrounding
whitespace), or the textual not-a-number token in any letter case. -/
def sourceEmptyish (o : Option String) : Prop :=
  o = none ∨ ∃ s, o = some s ∧ (pyStrip s = ("") ∨ pyLower (pyStrip s) = ("nan"))

/-- A product whose bag-style raw value is the truthy string `[""]`, which
normalizes to the empty string. -/
def productC9 : Product :=
  { emptyProduct with bag_style := some ("[\"\"]") }

/-- A long auto-generated-looking description: 200 repetitions of a signal
word, exceeding both legacy thresholds. -/
def dLegacy : String := String.intercalate (" ") (List.replicate 200 ("status"))

/-- A product whose colour reference collection carries the category values
Black, Grey, Black across three sub-records. -/
def productC7 : Product :=
  { emptyProduct with hermes_colour :=
      [[{ key := some ("black_grey"), value := some ("Black") }],
       [{ key := some ("black_grey"), value := some ("Grey") }],
       [{ key := some ("black_grey"), value := some ("Black") }]] }

theorem nan_data_eq : ("nan").data = ('n' :: 'a' :: 'n' :: []) := rfl

/-- A string that strips to empty fails CPython float conversion. -/
theorem pyParseFloat_of_strip_empty (s : String) (h : pyStrip s = ("")) :
    pyParseFloat s = none := by
  unfold pyParseFloat
  rw [h]
  rfl

/-- A string whose stripped lower-casing is the nan token converts to NaN. -/
theorem pyParseFloat_of_strip_nan (s : String) (h : pyLower (pyStrip s) = ("nan")) :
    pyParseFloat s = some PFloat.nan := by
  have hd : ((pyStrip s).data).map Char.toLower = ("nan").data := congrArg String.data h
  unfold pyParseFloat
  cases hl : (pyStrip s).data with
  | nil =>
    rw [hl, nan_data_eq] at hd
    exact absurd hd (by decide)
  | cons c0 l1 =>
    rw [hl] at hd
    rw [nan_data_eq, List.map_cons, List.cons.injEq] at hd
    obtain ⟨h0, hrest⟩ := hd
    have hp : ¬ c0 = '+' := by
      rintro rfl
      exact absurd h0 (by decide)
    have hm : ¬ c0 = '-' := by
      rintro rfl
      exact absurd h0 (by decide)
    change (if c0 = '+' then pyFloatBody false l1
      else if c0 = '-' then pyFloatBody true l1
      else pyFloatBody false (c0 :: l1)) = some PFloat.nan
    rw [if_neg hp, if_neg hm]
    unfold pyFloatBody
    rw [List.map_cons, h0, hrest, nan_data_eq]
    rw [if_neg (by decide), if_pos (by decide)]

/-- An emptyish string never yields a bag size: `int(float(s))` raises. -/
theorem int_float_str_of_emptyish (t : String)
    (h : pyStrip t = ("") ∨ pyLower (pyStrip t) = ("nan")) :
    int_float_str t = none := by
  unfold int_float_str
  rcases h with h | h
  · rw [pyParseFloat_of_strip_empty t h]
  · rw [pyParseFloat_of_strip_nan t h]

/-- An emptyish value is normalized to null by `parse_listish_string`. -/
theorem parse_listish_of_emptyish (o : Option String) (h : sourceEmptyish o) :
    parse_listish_string o = none := by
  rcases h with rfl | ⟨t, rfl, h⟩
  · rfl
  · simp only [parse_listish_string]
    rcases h with h | h
    · rw [if_pos h]
    · have hne : ¬ pyStrip t = ("") := by
        intro he
        rw [he] at h
        exact absurd h (by decide)
      rw [if_neg hne, if_pos h]

/-- An emptyish value is normalized to null by the dimensions normalizer. -/
theorem parse_dimensions_of_emptyish (o : Option String) (h : sourceEmptyish o) :
    parse_dimensions_list_dimension o = DimResult.pyNone := by
  rcases h with rfl | ⟨t, rfl, h⟩
  · rfl
  · simp only [parse_dimensions_list_dimension]
    by_cases he : t = ("")
    · rw [if_pos he]
    · rw [if_neg he]
      rcases h with h | h
      · rw [if_pos h]
      · have hne : ¬ pyStrip t = ("") := by
          intro he2
          rw [he2] at h
          exact absurd h (by decide)
        rw [if_neg hne, if_pos h]

/-- Folding the lookup over members none of which carry the key leaves the
accumulator unchanged. -/
theorem foldl_lookup_of_not_mem (k : String) (fs : List (String × PyVal))
    (acc : Option PyVal) (h : k ∉ fs.map Prod.fst) :
    fs.foldl (fun acc kv => if kv.1 = k then some kv.2 else acc) acc = acc := by
  induction fs generalizing acc with
  | nil => rfl
  | cons kv fs ih =>
    simp only [List.map_cons, List.mem_cons] at h
    push_neg at h
    rw [List.foldl_cons, if_neg (fun he => h.1 he.symm), ih acc h.2]

/-- A dict without the key yields `None` from `.get`. -/
theorem dict_get_of_not_mem (k : String) (fs : List (String × PyVal))
    (h : k ∉ fs.map Prod.fst) : dict_get fs k = PyVal.none_ := by
  unfold dict_get
  rw [foldl_lookup_of_not_mem k fs none h]
  rfl

/-- A non-null first element is stringified and trimmed. -/
theorem listishFirst_of_ne (v : PyVal) (h : v ≠ PyVal.none_) :
    listishFirst v = some (pyStrip (pyStr v)) := by
  cases v <;> first | exact absurd rfl h | rfl

/-- De-duplication only removes elements: the result is a sublist. -/
theorem pyDedupAux_sublist (l seen : List String) :
    List.Sublist (pyDedupAux seen l) l := by
  induction l generalizing seen with
  | nil => simp [pyDedupAux]
  | cons x xs ih =>
    simp only [pyDedupAux]
    by_cases hx : x ∈ seen
    · rw [if_pos hx]
      exact (ih seen).cons x
    · rw [if_neg hx]
      exact (ih (x :: seen)).cons₂ x

/-- Membership characterization of the de-duplication accumulator. -/
theorem pyDedupAux_mem (a : String) (l : List String) :
    ∀ seen, a ∈ pyDedupAux seen l ↔ a ∈ l ∧ a ∉ seen := by
  induction l with
  | nil => intro seen; simp [pyDedupAux]
  | cons x xs ih =>
    intro seen
    simp only [pyDedupAux]
    by_cases hx : x ∈ seen
    · rw [if_pos hx, ih seen]
      constructor
      · rintro ⟨h1, h2⟩
        exact ⟨List.mem_cons_of_mem x h1, h2⟩
      · rintro ⟨h1, h2⟩
        rcases List.mem_cons.mp h1 with rfl | h1
        · exact absurd hx h2
        · exact ⟨h1, h2⟩
    · rw [if_neg hx]
      rw [List.mem_cons, ih (x :: seen)]
      constructor
      · rintro (rfl | ⟨h1, h2⟩)
        · exact ⟨List.mem_cons_self _ _, hx⟩
        · exact ⟨List.mem_cons_of_mem x h1, fun hs => h2 (List.mem_cons_of_mem x hs)⟩
      · rintro ⟨h1, h2⟩
        by_cases hax : a = x
        · exact Or.inl hax
        · rcases List.mem_cons.mp h1 with rfl | h1
          · exact absurd rfl hax
          · exact Or.inr ⟨h1, fun hs => (List.mem_cons.mp hs).elim hax h2⟩

/-- De-duplication leaves no duplicates. -/
theorem pyDedupAux_nodup (l : List String) : ∀ seen, (pyDedupAux seen l).Nodup := by
  induction l with
  | nil => intro seen; simp [pyDedupAux]
  | cons x xs ih =>
    intro seen
    simp only [pyDedupAux]
    by_cases hx : x ∈ seen
    · rw [if_pos hx]
      exact ih seen
    · rw [if_neg hx]
      refine List.nodup_cons.mpr ⟨?_, ih (x :: seen)⟩
      intro hmem
      exact ((pyDedupAux_mem x xs (x :: seen)).mp hmem).2 (List.mem_cons_self x seen)

/-- C1: for every product record whose bag-style raw attribute value is
absent or empty, the classifier returns the Skip disposition with no
preserved note, regardless of the content of the existing description. -/
theorem bag_style_empty_skips (bag desc : Option String)
    (h : bag = none ∨ bag = some ("")) :
    should_process_product bag desc =
      (false, none,
       ("SKIPPED: Bag Style is empty (non-Hermès handbag / manual description required)")) := by
  rcases h with rfl | rfl <;> rfl

/-- Witness for C1 at a concrete record with an absent bag style and a
non-trivial description. -/
theorem bag_style_empty_skips_witness :
    should_process_product none (some ("<p>Anything at all</p>")) =
      (false, none,
       ("SKIPPED: Bag Style is empty (non-Hermès handbag / manual description required)")) :=
  bag_style_empty_skips none (some ("<p>Anything at all</p>")) (Or.inl rfl)

/-- C2: with a non-empty bag-style value and a non-empty description whose
stripped word count lies in [1,50], the classifier processes the product,
preserves the original markup verbatim as the editor note, and reports the
word count in the reason. -/
theorem editor_note_round_trip (bag : Option String) (b d : String)
    (hb : bag = some b) (hbne : b ≠ (""))
    (hdne : d ≠ (""))
    (h1 : 1 ≤ word_count (strip_html_to_text d))
    (h50 : word_count (strip_html_to_text d) ≤ 50) :
    should_process_product bag (some d) =
      (true, some d,
       ("PROCESS: editor note detected (") ++
         toString (word_count (strip_html_to_text d)) ++ (" words)")) := by
  subst hb
  simp only [should_process_product, descOr]
  have hs : strTruthy (some b) = true := by simp [strTruthy, hbne]
  rw [hs, if_neg (by decide : ¬ (true = false)), if_neg hdne,
    if_pos (⟨h1, h50⟩ : 0 < word_count (strip_html_to_text d) ∧
      word_count (strip_html_to_text d) ≤ EDITORS_NOTE_MAX_WORDS)]

/-- Witness for C2 at a concrete two-word markup note. -/
theorem editor_note_round_trip_witness :
    should_process_product (some ("Birkin")) (some ("<p>Nice bag</p>")) =
      (true, some ("<p>Nice bag</p>"), ("PROCESS: editor note detected (2 words)")) :=
  editor_note_round_trip (some ("Birkin")) ("Birkin") ("<p>Nice bag</p>") rfl
    (by decide) (by decide) (by decide) (by decide)

/-- C3: with a non-empty bag style, a non-empty description and a stripped
word count outside [1,50], the classifier processes (with no preserved note)
exactly when the raw length exceeds 1200, the word count exceeds 180 and at
least one signal phrase occurs; otherwise it skips, also with no note. -/
theorem legacy_detection_iff (bag : Option String) (b d : String)
    (hb : bag = some b) (hbne : b ≠ (""))
    (hdne : d ≠ (""))
    (hwc : ¬(1 ≤ word_count (strip_html_to_text d) ∧
      word_count (strip_html_to_text d) ≤ 50)) :
    (should_process_product bag (some d)).2.1 = none ∧
    ((should_process_product bag (some d)).1 = true ↔
      (1200 < d.length ∧ 180 < word_count (strip_html_to_text d) ∧
        1 ≤ count_ai_phrases d)) := by
  subst hb
  simp only [should_process_product, descOr]
  have hs : strTruthy (some b) = true := by simp [strTruthy, hbne]
  have hwc0 : ¬(0 < word_count (strip_html_to_text d) ∧
      word_count (strip_html_to_text d) ≤ EDITORS_NOTE_MAX_WORDS) := hwc
  rw [hs, if_neg (by decide : ¬ (true = false)), if_neg hdne, if_neg hwc0]
  by_cases hleg : MAX_CHAR_COUNT < d.length ∧
      MAX_WORD_COUNT < word_count (strip_html_to_text d) ∧
      MIN_AI_PHRASES ≤ count_ai_phrases d
  · rw [if_pos hleg]
    refine ⟨rfl, ?_⟩
    constructor
    · intro _
      exact hleg
    · intro _
      rfl
  · rw [if_neg hleg]
    refine ⟨rfl, ?_⟩
    constructor
    · intro hfalse
      exact absurd hfalse Bool.false_ne_true
    · intro hc
      exact absurd hc hleg

set_option maxRecDepth 80000 in
/-- Witness for C3 at a concrete 200-word signal-phrase-laden description,
exercising the legacy-process side. -/
theorem legacy_detection_iff_witness :
    (should_process_product (some ("Birkin")) (some dLegacy)).2.1 = none ∧
    (should_process_product (some ("Birkin")) (some dLegacy)).1 = true := by
  obtain ⟨h1, h2⟩ := legacy_detection_iff (some ("Birkin")) ("Birkin") dLegacy rfl
    (by decide) (by decide) (by decide)
  exact ⟨h1, h2.mpr (by decide)⟩

/-- C4 (amended): `parse_listish_string` returns null for null, empty, or
"nan" input; for a trimmed bracket-delimited input that strictly decodes as a
non-empty list it returns the first element stringified and trimmed (null if
that element is null); if the decoded list is empty the trimmed input is
returned unchanged; a non-bracket-delimited string is returned unchanged
(trimmed).  The listed concrete examples hold. -/
theorem parse_listish_spec :
    parse_listish_string none = none ∧
    parse_listish_string (some ("")) = none ∧
    parse_listish_string (some ("nan")) = none ∧
    (∀ v first rest,
      pyStrip v ≠ ("") →
      pyLower (pyStrip v) ≠ ("nan") →
      strStartsWith (pyStrip v) ("[") →
      strEndsWith (pyStrip v) ("]") →
      json_loads (pyStrip v) = some (.list_ (first :: rest)) →
      (first = PyVal.none_ → parse_listish_string (some v) = none) ∧
      (first ≠ PyVal.none_ →
        parse_listish_string (some v) = some (pyStrip (pyStr first)))) ∧
    (∀ v,
      pyStrip v ≠ ("") →
      pyLower (pyStrip v) ≠ ("nan") →
      strStartsWith (pyStrip v) ("[") →
      strEndsWith (pyStrip v) ("]") →
      json_loads (pyStrip v) = some (.list_ []) →
      parse_listish_string (some v) = some (pyStrip v)) ∧
    (∀ v,
      pyStrip v ≠ ("") →
      pyLower (pyStrip v) ≠ ("nan") →
      ¬(strStartsWith (pyStrip v) ("[") ∧ strEndsWith (pyStrip v) ("]")) →
      parse_listish_string (some v) = some (pyStrip v)) ∧
    parse_listish_string (some ("[\"Birkin\"]")) = some ("Birkin") ∧
    parse_listish_string (some ("[\"A\",\"B\"]")) = some ("A") ∧
    parse_listish_string (some ("Plain")) = some ("Plain") := by
  refine ⟨rfl, rfl, rfl, ?_, ?_, ?_, rfl, rfl, rfl⟩
  · intro v first rest hne hnan hsw hew hj
    simp only [parse_listish_string]
    rw [if_neg hne, if_neg hnan, if_pos ⟨hsw, hew⟩, hj]
    constructor
    · rintro rfl
      rfl
    · intro hne2
      exact listishFirst_of_ne first hne2
  · intro v hne hnan hsw hew hj
    simp only [parse_listish_string]
    rw [if_neg hne, if_neg hnan, if_pos ⟨hsw, hew⟩, hj]
  · intro v hne hnan hnb
    simp only [parse_listish_string]
    rw [if_neg hne, if_neg hnan, if_neg hnb]

/-- C4 counterexample: on the bracket-delimited input that strictly decodes
to the empty list, the source returns the trimmed input, not null. -/
theorem parse_listish_empty_list_counterexample :
    parse_listish_string (some ("[]")) = some ("[]") ∧
    parse_listish_string (some ("[]")) ≠ none := by
  exact ⟨rfl, by decide⟩

/-- Witness for C4 at concrete inputs exercising each hypothesis-bearing
conjunct. -/
theorem parse_listish_spec_witness :
    parse_listish_string (some (" [\"X\", null] ")) = some ("X") ∧
    parse_listish_string (some ("[null]")) = none ∧
    parse_listish_string (some ("hello world")) = some ("hello world") := by
  obtain ⟨-, -, -, hcons, -, hplain, -, -, -⟩ := parse_listish_spec
  refine ⟨?_, ?_, ?_⟩
  · exact (hcons (" [\"X\", null] ") (.str_ ("X")) [PyVal.none_]
      (by decide) (by decide) (by decide) (by decide) rfl).2 (by simp)
  · exact (hcons ("[null]") PyVal.none_ []
      (by decide) (by decide) (by decide) (by decide) rfl).1 rfl
  · exact hplain ("hello world") (by decide) (by decide) (by decide)

/-- C5 (amended): the dimensions normalizer coerces each dict element's
magnitude to an integer by truncating its float conversion whenever that
conversion yields a finite value (so fractional magnitudes are truncated, not
kept as floats), leaves the raw value when the conversion raises, and
lower-cases the unit substituting the centimetre spellings with "cm"; when
the decoded list yields no valid element, decoding fails entirely, or an
exception is raised while traversing the list (a truthy non-string unit) and
caught by the except clause, the trimmed raw string is returned; the listed
concrete example holds. -/
theorem parse_dimensions_spec :
    (∀ raw, raw ≠ ("") → pyStrip raw ≠ ("") → pyLower (pyStrip raw) ≠ ("nan") →
      json_loads (pyStrip raw) = none →
      parse_dimensions_list_dimension (some raw) = .val (.str_ (pyStrip raw))) ∧
    (∀ raw ds, raw ≠ ("") → pyStrip raw ≠ ("") → pyLower (pyStrip raw) ≠ ("nan") →
      json_loads (pyStrip raw) = some (.list_ ds) → dimFold ds = some [] →
      parse_dimensions_list_dimension (some raw) = .val (.str_ (pyStrip raw))) ∧
    (∀ raw ds, raw ≠ ("") → pyStrip raw ≠ ("") → pyLower (pyStrip raw) ≠ ("nan") →
      json_loads (pyStrip raw) = some (.list_ ds) → dimFold ds = none →
      parse_dimensions_list_dimension (some raw) = .val (.str_ (pyStrip raw))) ∧
    (∀ fs u, dict_get fs ("unit") = .str_ u →
      dimElem (.dict_ fs) = some (some (.dict_
        [(("value"), coerceDimValue (dict_get fs ("value"))),
         (("unit"), .str_ (normUnit u))]))) ∧
    (∀ w m e, pyFloatOfVal w = some (.finite m e) →
      coerceDimValue w = .int_ (truncDec m e)) ∧
    (∀ w, pyFloatOfVal w = none → coerceDimValue w = w) ∧
    parse_dimensions_list_dimension
        (some ("[\x7b\"value\":\"24\",\"unit\":\"Centimeters\"\x7d]")) =
      .val (.list_ [.dict_ [(("value"), .int_ 24), (("unit"), .str_ ("cm"))]]) := by
  refine ⟨?_, ?_, ?_, ?_, ?_, ?_, rfl⟩
  · intro raw h1 h2 h3 hj
    simp only [parse_dimensions_list_dimension]
    rw [if_neg h1, if_neg h2, if_neg h3, hj]
    rfl
  · intro raw ds h1 h2 h3 hj hf
    simp only [parse_dimensions_list_dimension]
    rw [if_neg h1, if_neg h2, if_neg h3, hj]
    simp only [dimsFromDecoded]
    rw [hf]
  · intro raw ds h1 h2 h3 hj hf
    simp only [parse_dimensions_list_dimension]
    rw [if_neg h1, if_neg h2, if_neg h3, hj]
    simp only [dimsFromDecoded]
    rw [hf]
  · intro fs u hu
    simp only [dimElem]
    rw [hu]
    rfl
  · intro w m e hw
    simp only [coerceDimValue]
    rw [hw]
  · intro w hw
    simp only [coerceDimValue]
    rw [hw]

/-- C5 counterexample: a fractional magnitude is truncated to an integer
(the claim predicts the floating value 24.5), and a non-decodable raw string
is returned trimmed (the claim predicts it unmodified). -/
theorem parse_dimensions_counterexample :
    parse_dimensions_list_dimension (some ("[\x7b\"value\":\"24.5\",\"unit\":\"cm\"\x7d]")) =
      .val (.list_ [.dict_ [(("value"), .int_ 24), (("unit"), .str_ ("cm"))]]) ∧
    parse_dimensions_list_dimension (some (" not json ")) = .val (.str_ ("not json")) := by
  exact ⟨rfl, rfl⟩

/-- Witness for C5 at concrete inputs exercising each hypothesis-bearing
conjunct. -/
theorem parse_dimensions_spec_witness :
    parse_dimensions_list_dimension (some ("oops")) = .val (.str_ ("oops")) ∧
    parse_dimensions_list_dimension (some ("[1, 2]")) = .val (.str_ ("[1, 2]")) ∧
    parse_dimensions_list_dimension (some ("[\x7b\"unit\":5\x7d]")) =
      .val (.str_ ("[\x7b\"unit\":5\x7d]")) ∧
    dimElem (.dict_ [(("value"), .str_ ("7.9")), (("unit"), .str_ ("Centimetres"))]) =
      some (some (.dict_ [(("value"), .int_ 7), (("unit"), .str_ ("cm"))])) ∧
    coerceDimValue (.str_ ("7.9")) = .int_ 7 ∧
    coerceDimValue (.list_ []) = .list_ [] := by
  obtain ⟨hfail, hempty, hcaught, helem, hfin, hraw, -⟩ := parse_dimensions_spec
  refine ⟨?_, ?_, ?_, ?_, ?_, ?_⟩
  · exact hfail ("oops") (by decide) (by decide) (by decide) rfl
  · exact hempty ("[1, 2]") [.int_ 1, .int_ 2] (by decide) (by decide) (by decide) rfl rfl
  · exact hcaught ("[\x7b\"unit\":5\x7d]") [.dict_ [(("unit"), .int_ 5)]]
      (by decide) (by decide) (by decide) rfl rfl
  · exact helem [(("value"), .str_ ("7.9")), (("unit"), .str_ ("Centimetres"))]
      ("Centimetres") rfl
  · exact hfin (.str_ ("7.9")) 79 (-1) rfl
  · exact hraw (.list_ []) rfl

/-- C8: when the generation-service response lacks the expected markup field,
processing that product fails with an error (never a generated result), and
the error message embeds the repr of the keys actually present. -/
theorem webhook_missing_markup_fatal (resp : List (String × PyVal))
    (h : ("description_html") ∉ resp.map Prod.fst) :
    webhook_response_step resp =
      .fatal (("FAILED: Webhook missing description_html (keys=") ++
        pyReprOfKeys (resp.map Prod.fst) ++ (")")) ∧
    ∀ w, webhook_response_step resp ≠ .generated w := by
  have hg : dict_get resp ("description_html") = PyVal.none_ :=
    dict_get_of_not_mem ("description_html") resp h
  have hstep : webhook_response_step resp =
      .fatal (("FAILED: Webhook missing description_html (keys=") ++
        pyReprOfKeys (resp.map Prod.fst) ++ (")")) := by
    simp only [webhook_response_step]
    rw [hg]
    rfl
  refine ⟨hstep, ?_⟩
  intro w hw
  rw [hstep] at hw
  exact absurd hw (by simp)

/-- Witness for C8 at a concrete response carrying only unrelated keys. -/
theorem webhook_missing_markup_fatal_witness :
    webhook_response_step [(("error"), .str_ ("rate limited"))] =
      .fatal (("FAILED: Webhook missing description_html (keys=[\x27error\x27])")) :=
  (webhook_missing_markup_fatal [(("error"), .str_ ("rate limited"))] (by decide)).1

/-- C9: a product whose raw bag-style value is the truthy string `[""]` is
classified Process (here its description is empty), yet the extractor's
specifications omit the bag_style key, because the normalized first element
is the empty string. -/
theorem classifier_extractor_bag_style_gap :
    strTruthy productC9.bag_style = true ∧
    (should_process_product productC9.bag_style productC9.descriptionHtml).1 = true ∧
    parse_listish_string productC9.bag_style = some ("") ∧
    ("bag_style") ∉
      (build_payload_from_product productC9
        (should_process_product productC9.bag_style
          productC9.descriptionHtml).2.1).specifications.map Prod.fst := by
  refine ⟨rfl, rfl, rfl, by decide⟩

/-- C10: the effective signal-phrase dictionary has 21 entries, with the three
fused spellings present as single entries; a markup consisting only of the
word swallowed by a fusion counts zero phrases; and the count never exceeds
21 on any input. -/
theorem ai_phrase_dictionary_fused :
    AI_PHRASES.length = 21 ∧
    ("symphonyindulge") ∈ AI_PHRASES ∧
    ("elleganceunparalleled") ∈ AI_PHRASES ∧
    ("craftsmanshipsophisticated") ∈ AI_PHRASES ∧
    count_ai_phrases ("indulge") = 0 ∧
    count_ai_phrases ("unparalleled") = 0 ∧
    count_ai_phrases ("sophisticated") = 0 ∧
    ∀ s, count_ai_phrases s ≤ 21 := by
  refine ⟨rfl, by decide, by decide, by decide, by decide, by decide, by decide, ?_⟩
  intro s
  have h := List.length_filter_le
    (fun p => listIsInfix p.data (pyLower s).data) AI_PHRASES
  simpa [count_ai_phrases] using h

/-- The bag-style segment only ever carries the bag_style key. -/
theorem bagStyleSeg_keys (p : Product) (k : String)
    (hk : k ∈ (bagStyleSeg p).map Prod.fst) : k ∈ [("bag_style")] := by
  unfold bagStyleSeg at hk
  split at hk
  · split at hk
    · simp at hk
    · simpa using hk
  · simp at hk

/-- The bag-size segment only ever carries the bag_size_cm key. -/
theorem bagSizeSeg_keys (p : Product) (k : String)
    (hk : k ∈ (bagSizeSeg p).map Prod.fst) : k ∈ [("bag_size_cm")] := by
  unfold bagSizeSeg at hk
  split at hk
  · simp at hk
  · split at hk
    · simp at hk
    · split at hk
      · simpa using hk
      · simp at hk

/-- The condition segment only ever carries the condition key. -/
theorem conditionSeg_keys (p : Product) (k : String)
    (hk : k ∈ (conditionSeg p).map Prod.fst) : k ∈ [("condition")] := by
  unfold conditionSeg at hk
  split at hk
  · split at hk
    · simp at hk
    · simpa using hk
  · simp at hk

/-- The unconditional segment carries exactly the four verbatim keys. -/
theorem alwaysSeg_keys (p : Product) (k : String)
    (hk : k ∈ (alwaysSeg p).map Prod.fst) :
    k ∈ [("stamp"), ("receipt"), ("accessories"), ("hardware")] := by
  simpa [alwaysSeg] using hk

/-- The dimensions segment only ever carries the dimensions key. -/
theorem dimsSeg_keys (p : Product) (k : String)
    (hk : k ∈ (dimsSeg p).map Prod.fst) : k ∈ [("dimensions")] := by
  unfold dimsSeg at hk
  split at hk
  · simpa using hk
  · simp at hk

/-- The colour segment only ever carries the colour join keys. -/
theorem colourSeg_keys (p : Product) (k : String)
    (hk : k ∈ (colourSeg p).map Prod.fst) :
    k ∈ [("hermes_colour"), ("hermes_colour_code")] := by
  unfold colourSeg at hk
  split at hk
  · simp at hk
  · rw [List.map_append] at hk
    rcases List.mem_append.mp hk with hk | hk
    · split at hk
      · simp at hk
      · simp at hk
        simp [hk]
    · split at hk
      · simp at hk
      · simp at hk
        simp [hk]

/-- The material segment only ever carries the material join key. -/
theorem materialSeg_keys (p : Product) (k : String)
    (hk : k ∈ (materialSeg p).map Prod.fst) : k ∈ [("hermes_material")] := by
  unfold materialSeg at hk
  split at hk
  · simp at hk
  · split at hk
    · simp at hk
    · simpa using hk

/-- An emptyish bag style emits no segment. -/
theorem bagStyleSeg_of_emptyish (p : Product) (h : sourceEmptyish p.bag_style) :
    bagStyleSeg p = [] := by
  unfold bagStyleSeg
  rw [parse_listish_of_emptyish p.bag_style h]

/-- An emptyish bag size emits no segment. -/
theorem bagSizeSeg_of_emptyish (p : Product) (h : sourceEmptyish p.bag_size) :
    bagSizeSeg p = [] := by
  unfold bagSizeSeg
  rcases h with hnone | ⟨t, heq, ht⟩
  · rw [hnone]
  · rw [heq]
    show (if t = ("") ∨ t = ("nan") ∨ t = ("NaN") then ([] : List (String × PyVal))
      else
        match int_float_str t with
        | some n => [(("bag_size_cm"), PyVal.int_ n)]
        | none => []) = []
    by_cases hc : t = ("") ∨ t = ("nan") ∨ t = ("NaN")
    · rw [if_pos hc]
    · rw [if_neg hc, int_float_str_of_emptyish t ht]

/-- An emptyish condition emits no segment. -/
theorem conditionSeg_of_emptyish (p : Product) (h : sourceEmptyish p.condition) :
    conditionSeg p = [] := by
  unfold conditionSeg
  rw [parse_listish_of_emptyish p.condition h]

/-- An emptyish dimensions value emits no segment. -/
theorem dimsSeg_of_emptyish (p : Product) (h : sourceEmptyish p.dimensions) :
    dimsSeg p = [] := by
  unfold dimsSeg
  rw [parse_dimensions_of_emptyish p.dimensions h]

/-- C6: the extractor's specifications always contain the stamp, receipt,
accessories and hardware keys with the source values copied verbatim
(possibly null), and omit each conditional key whose source value was absent,
empty, or the textual not-a-number token (for the reference collections:
whose reference list is empty). -/
theorem specifications_key_invariants (p : Product) (note : Option String) :
    (("stamp"), optPy p.stamp) ∈
      (build_payload_from_product p note).specifications ∧
    (("receipt"), optPy p.receipt) ∈
      (build_payload_from_product p note).specifications ∧
    (("accessories"), optPy p.accessories) ∈
      (build_payload_from_product p note).specifications ∧
    (("hardware"), optPy p.hardware) ∈
      (build_payload_from_product p note).specifications ∧
    (sourceEmptyish p.bag_style →
      ("bag_style") ∉ (build_payload_from_product p note).specifications.map Prod.fst) ∧
    (sourceEmptyish p.bag_size →
      ("bag_size_cm") ∉ (build_payload_from_product p note).specifications.map Prod.fst) ∧
    (sourceEmptyish p.condition →
      ("condition") ∉ (build_payload_from_product p note).specifications.map Prod.fst) ∧
    (sourceEmptyish p.dimensions →
      ("dimensions") ∉ (build_payload_from_product p note).specifications.map Prod.fst) ∧
    (p.hermes_colour = [] →
      ("hermes_colour") ∉ (build_payload_from_product p note).specifications.map Prod.fst ∧
      ("hermes_colour_code") ∉
        (build_payload_from_product p note).specifications.map Prod.fst) ∧
    (p.hermes_material = [] →
      ("hermes_material") ∉ (build_payload_from_product p note).specifications.map Prod.fst) := by
  simp only [build_payload_from_product]
  refine ⟨?_, ?_, ?_, ?_, ?_, ?_, ?_, ?_, ?_, ?_⟩
  · simp [specsOf, alwaysSeg, List.mem_append]
  · simp [specsOf, alwaysSeg, List.mem_append]
  · simp [specsOf, alwaysSeg, List.mem_append]
  · simp [specsOf, alwaysSeg, List.mem_append]
  · intro hbs hmem
    simp only [specsOf, List.map_append, List.mem_append] at hmem
    rcases hmem with ((((((h1 | h2) | h3) | h4) | h5) | h6) | h7)
    · rw [bagStyleSeg_of_emptyish p hbs] at h1
      simp at h1
    · exact absurd (bagSizeSeg_keys p _ h2) (by decide)
    · exact absurd (conditionSeg_keys p _ h3) (by decide)
    · exact absurd (alwaysSeg_keys p _ h4) (by decide)
    · exact absurd (dimsSeg_keys p _ h5) (by decide)
    · exact absurd (colourSeg_keys p _ h6) (by decide)
    · exact absurd (materialSeg_keys p _ h7) (by decide)
  · intro hbs hmem
    simp only [specsOf, List.map_append, List.mem_append] at hmem
    rcases hmem with ((((((h1 | h2) | h3) | h4) | h5) | h6) | h7)
    · exact absurd (bagStyleSeg_keys p _ h1) (by decide)
    · rw [bagSizeSeg_of_emptyish p hbs] at h2
      simp at h2
    · exact absurd (conditionSeg_keys p _ h3) (by decide)
    · exact absurd (alwaysSeg_keys p _ h4) (by decide)
    · exact absurd (dimsSeg_keys p _ h5) (by decide)
    · exact absurd (colourSeg_keys p _ h6) (by decide)
    · exact absurd (materialSeg_keys p _ h7) (by decide)
  · intro hbs hmem
    simp only [specsOf, List.map_append, List.mem_append] at hmem
    rcases hmem with ((((((h1 | h2) | h3) | h4) | h5) | h6) | h7)
    · exact absurd (bagStyleSeg_keys p _ h1) (by decide)
    · exact absurd (bagSizeSeg_keys p _ h2) (by decide)
    · rw [conditionSeg_of_emptyish p hbs] at h3
      simp at h3
    · exact absurd (alwaysSeg_keys p _ h4) (by decide)
    · exact absurd (dimsSeg_keys p _ h5) (by decide)
    · exact absurd (colourSeg_keys p _ h6) (by decide)
    · exact absurd (materialSeg_keys p _ h7) (by decide)
  · intro hbs hmem
    simp only [specsOf, List.map_append, List.mem_append] at hmem
    rcases hmem with ((((((h1 | h2) | h3) | h4) | h5) | h6) | h7)
    · exact absurd (bagStyleSeg_keys p _ h1) (by decide)
    · exact absurd (bagSizeSeg_keys p _ h2) (by decide)
    · exact absurd (conditionSeg_keys p _ h3) (by decide)
    · exact absurd (alwaysSeg_keys p _ h4) (by decide)
    · rw [dimsSeg_of_emptyish p hbs] at h5
      simp at h5
    · exact absurd (colourSeg_keys p _ h6) (by decide)
    · exact absurd (materialSeg_keys p _ h7) (by decide)
  · intro hnil
    constructor
    · intro hmem
      simp only [specsOf, List.map_append, List.mem_append] at hmem
      rcases hmem with ((((((h1 | h2) | h3) | h4) | h5) | h6) | h7)
      · exact absurd (bagStyleSeg_keys p _ h1) (by decide)
      · exact absurd (bagSizeSeg_keys p _ h2) (by decide)
      · exact absurd (conditionSeg_keys p _ h3) (by decide)
      · exact absurd (alwaysSeg_keys p _ h4) (by decide)
      · exact absurd (dimsSeg_keys p _ h5) (by decide)
      · rw [colourSeg, hnil] at h6
        simp at h6
      · exact absurd (materialSeg_keys p _ h7) (by decide)
    · intro hmem
      simp only [specsOf, List.map_append, List.mem_append] at hmem
      rcases hmem with ((((((h1 | h2) | h3) | h4) | h5) | h6) | h7)
      · exact absurd (bagStyleSeg_keys p _ h1) (by decide)
      · exact absurd (bagSizeSeg_keys p _ h2) (by decide)
      · exact absurd (conditionSeg_keys p _ h3) (by decide)
      · exact absurd (alwaysSeg_keys p _ h4) (by decide)
      · exact absurd (dimsSeg_keys p _ h5) (by decide)
      · rw [colourSeg, hnil] at h6
        simp at h6
      · exact absurd (materialSeg_keys p _ h7) (by decide)
  · intro hnil hmem
    simp only [specsOf, List.map_append, List.mem_append] at hmem
    rcases hmem with ((((((h1 | h2) | h3) | h4) | h5) | h6) | h7)
    · exact absurd (bagStyleSeg_keys p _ h1) (by decide)
    · exact absurd (bagSizeSeg_keys p _ h2) (by decide)
    · exact absurd (conditionSeg_keys p _ h3) (by decide)
    · exact absurd (alwaysSeg_keys p _ h4) (by decide)
    · exact absurd (dimsSeg_keys p _ h5) (by decide)
    · exact absurd (colourSeg_keys p _ h6) (by decide)
    · rw [materialSeg, hnil] at h7
      simp at h7

/-- Witness for C6 at the fully-empty product: the four verbatim keys are
present (as null) and every conditional key is absent. -/
theorem specifications_key_invariants_witness :
    (("stamp"), PyVal.none_) ∈
      (build_payload_from_product emptyProduct none).specifications ∧
    (("receipt"), PyVal.none_) ∈
      (build_payload_from_product emptyProduct none).specifications ∧
    (("accessories"), PyVal.none_) ∈
      (build_payload_from_product emptyProduct none).specifications ∧
    (("hardware"), PyVal.none_) ∈
      (build_payload_from_product emptyProduct none).specifications ∧
    ("bag_style") ∉
      (build_payload_from_product emptyProduct none).specifications.map Prod.fst ∧
    ("bag_size_cm") ∉
      (build_payload_from_product emptyProduct none).specifications.map Prod.fst ∧
    ("condition") ∉
      (build_payload_from_product emptyProduct none).specifications.map Prod.fst ∧
    ("dimensions") ∉
      (build_payload_from_product emptyProduct none).specifications.map Prod.fst ∧
    ("hermes_colour") ∉
      (build_payload_from_product emptyProduct none).specifications.map Prod.fst ∧
    ("hermes_colour_code") ∉
      (build_payload_from_product emptyProduct none).specifications.map Prod.fst ∧
    ("hermes_material") ∉
      (build_payload_from_product emptyProduct none).specifications.map Prod.fst := by
  obtain ⟨h1, h2, h3, h4, h5, h6, h7, h8, h9, h10⟩ :=
    specifications_key_invariants emptyProduct none
  exact ⟨h1, h2, h3, h4,
    h5 (Or.inl rfl), h6 (Or.inl rfl), h7 (Or.inl rfl), h8 (Or.inl rfl),
    (h9 rfl).1, (h9 rfl).2, h10 rfl⟩

/-- C7: the category values joined into hermes_colour / hermes_material and
the codes joined into hermes_colour_code are de-duplicated keeping the first
occurrence in field-iteration order and joined with " | "; de-duplication is
order-preserving (a nodup sublist with the same members), and the colour
values Black, Grey, Black join to "Black | Grey". -/
theorem reference_join_dedup (p : Product) (note : Option String) :
    (collectVals colourCatKeys p.hermes_colour ≠ [] →
      (("hermes_colour"), PyVal.str_ (String.intercalate (" | ")
        (pyDedup (collectVals colourCatKeys p.hermes_colour)))) ∈
        (build_payload_from_product p note).specifications) ∧
    (collectVals [("colour_code")] p.hermes_colour ≠ [] →
      (("hermes_colour_code"), PyVal.str_ (String.intercalate (" | ")
        (pyDedup (collectVals [("colour_code")] p.hermes_colour)))) ∈
        (build_payload_from_product p note).specifications) ∧
    (collectVals materialCatKeys p.hermes_material ≠ [] →
      (("hermes_material"), PyVal.str_ (String.intercalate (" | ")
        (pyDedup (collectVals materialCatKeys p.hermes_material)))) ∈
        (build_payload_from_product p note).specifications) ∧
    (∀ l : List String, (pyDedup l).Nodup ∧ List.Sublist (pyDedup l) l ∧
      ∀ x, x ∈ pyDedup l ↔ x ∈ l) ∧
    pyDedup [("Black"), ("Grey"), ("Black")] = [("Black"), ("Grey")] ∧
    String.intercalate (" | ") (pyDedup [("Black"), ("Grey"), ("Black")]) =
      ("Black | Grey") := by
  simp only [build_payload_from_product]
  refine ⟨?_, ?_, ?_, ?_, rfl, rfl⟩
  · intro hc
    have hmem : (("hermes_colour"), PyVal.str_ (String.intercalate (" | ")
        (pyDedup (collectVals colourCatKeys p.hermes_colour)))) ∈ colourSeg p := by
      unfold colourSeg
      cases hcol : p.hermes_colour with
      | nil =>
        rw [hcol] at hc
        simp [collectVals] at hc
      | cons n ns =>
        rw [hcol] at hc
        cases hcats : collectVals colourCatKeys (n :: ns) with
        | nil => exact absurd hcats hc
        | cons c cs =>
          exact List.mem_append_left _ (List.mem_cons_self _ _)
    simp only [specsOf, List.mem_append]
    exact Or.inl (Or.inr hmem)
  · intro hc
    have hmem : (("hermes_colour_code"), PyVal.str_ (String.intercalate (" | ")
        (pyDedup (collectVals [("colour_code")] p.hermes_colour)))) ∈ colourSeg p := by
      unfold colourSeg
      cases hcol : p.hermes_colour with
      | nil =>
        rw [hcol] at hc
        simp [collectVals] at hc
      | cons n ns =>
        rw [hcol] at hc
        cases hcodes : collectVals [("colour_code")] (n :: ns) with
        | nil => exact absurd hcodes hc
        | cons c cs =>
          exact List.mem_append_right _ (List.mem_cons_self _ _)
    simp only [specsOf, List.mem_append]
    exact Or.inl (Or.inr hmem)
  · intro hc
    have hmem : (("hermes_material"), PyVal.str_ (String.intercalate (" | ")
        (pyDedup (collectVals materialCatKeys p.hermes_material)))) ∈ materialSeg p := by
      unfold materialSeg
      cases hcol : p.hermes_material with
      | nil =>
        rw [hcol] at hc
        simp [collectVals] at hc
      | cons n ns =>
        rw [hcol] at hc
        cases hcats : collectVals materialCatKeys (n :: ns) with
        | nil => exact absurd hcats hc
        | cons c cs =>
          exact List.mem_cons_self _ _
    simp only [specsOf, List.mem_append]
    exact Or.inr hmem
  · intro l
    refine ⟨pyDedupAux_nodup l [], pyDedupAux_sublist l [], ?_⟩
    intro x
    rw [pyDedup, pyDedupAux_mem]
    simp

/-- Witness for C7 at a product whose three colour sub-records carry the
category values Black, Grey, Black. -/
theorem reference_join_dedup_witness :
    (("hermes_colour"), PyVal.str_ ("Black | Grey")) ∈
      (build_payload_from_product productC7 none).specifications :=
  (reference_join_dedup productC7 none).1 (by decide)
